import Mathlib

/-!
Verification of the cotrial-ragv2 repository against its specification.

This file shallowly embeds the Python functions named by the claims and proves
or refutes each claim.  Numeric values that are Python `float`s in the source
are modelled as exact rationals (`ℚ`); machine strings are modelled as Lean
`String`s over their character lists, with the Python `str` methods used by the
repository re-implemented character by character (ASCII model).
-/

set_option maxRecDepth 4000

/-! ### Python string primitives (ASCII model) -/

/-- Characters treated as whitespace by Python's `str.strip` / `str.split` /
`\s` regex class, restricted to ASCII. -/
def pyIsSpace (c : Char) : Bool :=
  c = ' ' || c = '\t' || c = '\n' || c = '\r' || c = '\x0b' || c = '\x0c'

/-- ASCII lower-casing of one character (model of `str.lower`). -/
def pyLowerChar (c : Char) : Char :=
  match c with
  | 'A' => 'a' | 'B' => 'b' | 'C' => 'c' | 'D' => 'd' | 'E' => 'e' | 'F' => 'f'
  | 'G' => 'g' | 'H' => 'h' | 'I' => 'i' | 'J' => 'j' | 'K' => 'k' | 'L' => 'l'
  | 'M' => 'm' | 'N' => 'n' | 'O' => 'o' | 'P' => 'p' | 'Q' => 'q' | 'R' => 'r'
  | 'S' => 's' | 'T' => 't' | 'U' => 'u' | 'V' => 'v' | 'W' => 'w' | 'X' => 'x'
  | 'Y' => 'y' | 'Z' => 'z' | c => c

/-- ASCII upper-casing of one character (model of `str.upper`). -/
def pyUpperChar (c : Char) : Char :=
  match c with
  | 'a' => 'A' | 'b' => 'B' | 'c' => 'C' | 'd' => 'D' | 'e' => 'E' | 'f' => 'F'
  | 'g' => 'G' | 'h' => 'H' | 'i' => 'I' | 'j' => 'J' | 'k' => 'K' | 'l' => 'L'
  | 'm' => 'M' | 'n' => 'N' | 'o' => 'O' | 'p' => 'P' | 'q' => 'Q' | 'r' => 'R'
  | 's' => 'S' | 't' => 'T' | 'u' => 'U' | 'v' => 'V' | 'w' => 'W' | 'x' => 'X'
  | 'y' => 'Y' | 'z' => 'Z' | c => c

/-- Model of `str.lower`. -/
def pyLower (s : String) : String := ⟨s.toList.map pyLowerChar⟩

/-- Model of `str.upper`. -/
def pyUpper (s : String) : String := ⟨s.toList.map pyUpperChar⟩

/-- Model of `str.strip` on a character list. -/
def pyStripList (l : List Char) : List Char :=
  ((l.dropWhile pyIsSpace).reverse.dropWhile pyIsSpace).reverse

/-- Model of `str.strip` (no arguments: strips whitespace from both ends). -/
def pyStrip (s : String) : String := ⟨pyStripList s.toList⟩

/-- Model of `str.rstrip(";")`: removes trailing semicolons. -/
def pyRstripSemi (s : String) : String :=
  ⟨(s.toList.reverse.dropWhile (fun c => c = ';')).reverse⟩

/-- Model of the Python substring test `sub in s`. -/
def pyContains (s sub : String) : Bool := decide (sub.toList <:+: s.toList)

/-- Model of `str.endswith`. -/
def pyEndsWith (s suffix : String) : Bool := decide (suffix.toList <:+ s.toList)

/-- Model of `str.split()` with no arguments: splits on whitespace runs and
returns no empty pieces. -/
def pySplitWsAux : List Char → List Char → List String
  | acc, [] => if acc.isEmpty then [] else [⟨acc.reverse⟩]
  | acc, c :: rest =>
      if pyIsSpace c then
        if acc.isEmpty then pySplitWsAux [] rest
        else ⟨acc.reverse⟩ :: pySplitWsAux [] rest
      else pySplitWsAux (c :: acc) rest

/-- Model of `str.split()` (whitespace split, empty pieces dropped). -/
def pySplitWs (s : String) : List String := pySplitWsAux [] s.toList

/-! ### Helper lemmas about the string primitives -/

theorem isInfixMap_of_mem {α β : Type} (f : α → β) {t s : List α}
    (h : t <:+: s) : t.map f <:+: s.map f := by
  obtain ⟨u, v, rfl⟩ := h
  exact ⟨u.map f, v.map f, by simp⟩

theorem pyStripList_shrinks (l : List Char) : pyStripList l <:+: l := by
  unfold pyStripList
  have h1 : l.dropWhile pyIsSpace <:+ l := List.dropWhile_suffix _
  have h2 : ((l.dropWhile pyIsSpace).reverse.dropWhile pyIsSpace).reverse.reverse
      <:+ (l.dropWhile pyIsSpace).reverse := by
    simpa using (List.dropWhile_suffix (l := (l.dropWhile pyIsSpace).reverse) pyIsSpace)
  have h3 : ((l.dropWhile pyIsSpace).reverse.dropWhile pyIsSpace).reverse
      <:+: l.dropWhile pyIsSpace := by
    have := h2
    rw [List.reverse_reverse] at this
    obtain ⟨t, ht⟩ := this
    refine ⟨[], ?_, ?_⟩
    · exact t.reverse
    · have := congrArg List.reverse ht
      simpa using this
  exact h3.trans h1.isInfix

/-- Dropping a whitespace prefix cannot destroy an occurrence of a pattern
whose first character is not whitespace. -/
theorem pattern_survives_dropWhile (p : Char → Bool) (c : Char) (tl : List Char)
    (hcp : p c = false) :
    ∀ l : List Char, (c :: tl) <:+: l → (c :: tl) <:+: l.dropWhile p := by
  intro l h
  obtain ⟨u, v, huv⟩ := h
  induction u generalizing l with
  | nil =>
      subst huv
      simp only [List.nil_append, List.cons_append, List.dropWhile_cons, hcp,
        Bool.false_eq_true, if_false]
      exact ⟨[], v, by simp⟩
  | cons a u ih =>
      subst huv
      simp only [List.cons_append, List.dropWhile_cons]
      by_cases hpa : p a = true
      · simp only [hpa, if_true]
        exact ih _ rfl
      · simp only [hpa, Bool.false_eq_true, if_false]
        exact ⟨a :: u, v, by simp⟩

/-- A pattern with no whitespace characters survives `pyStripList`. -/
theorem pattern_survives_pyStripList (t : List Char) (hne : t ≠ [])
    (hws : ∀ c ∈ t, pyIsSpace c = false) :
    ∀ l : List Char, t <:+: l → t <:+: pyStripList l := by
  intro l h
  obtain ⟨c, tl, hct⟩ : ∃ c tl, t = c :: tl := by
    cases t with
    | nil => exact absurd rfl hne
    | cons c tl => exact ⟨c, tl, rfl⟩
  have hstep1 : t <:+: l.dropWhile pyIsSpace := by
    rw [hct] at h ⊢
    exact pattern_survives_dropWhile pyIsSpace c tl
      (hws c (by rw [hct]; exact List.mem_cons_self _ _)) l h
  -- now handle the right side via reverse
  have hrev : t.reverse <:+: (l.dropWhile pyIsSpace).reverse := by
    obtain ⟨u, v, huv⟩ := hstep1
    exact ⟨v.reverse, u.reverse, by rw [← huv]; simp⟩
  obtain ⟨d, rl, hdt⟩ : ∃ d rl, t.reverse = d :: rl := by
    cases hrev' : t.reverse with
    | nil => exact absurd (by simpa using hrev') hne
    | cons d rl => exact ⟨d, rl, rfl⟩
  have hstep2 : t.reverse <:+: ((l.dropWhile pyIsSpace).reverse.dropWhile pyIsSpace) := by
    rw [hdt] at hrev ⊢
    refine pattern_survives_dropWhile pyIsSpace d rl ?_ _ hrev
    have : d ∈ t.reverse := by rw [hdt]; exact List.mem_cons_self _ _
    exact hws d (by simpa using this)
  unfold pyStripList
  obtain ⟨u, v, huv⟩ := hstep2
  exact ⟨v.reverse, u.reverse, by rw [← huv]; simp⟩

/-! ### MySQLClient.execute_query_with_limit (src/src/utils/mysql_client.py, lines 95-114)

The client-side SQL text transformation: the statement sent to the database is
returned (execution itself is the external database's job). -/

/-- Model of `MySQLClient.execute_query_with_limit`: the SQL text that is
actually executed, given the incoming query text and the `limit` argument. -/
def execute_query_with_limit (query : String) (limit : Nat) : String :=
  let query_upper := pyStrip (pyUpper query)
  if pyContains query_upper "LIMIT" then query
  else pyRstripSemi query ++ " LIMIT " ++ toString limit

theorem pyContains_of_pyContains_upper (s : String) (sub : String)
    (hne : sub.toList ≠ [])
    (hws : ∀ c ∈ sub.toList, pyIsSpace c = false)
    (h : pyContains (pyUpper s) sub = true) :
    pyContains (pyStrip (pyUpper s)) sub = true := by
  unfold pyContains at *
  rw [decide_eq_true_iff] at *
  exact pattern_survives_pyStripList sub.toList hne hws _ h

/-- C8: for every SQL string in which `limit` does not occur (even
case-insensitively, hence in particular for every SQL string lacking a LIMIT
clause), `execute_query_with_limit sql 7` executes `sql` with any trailing
semicolons stripped and ` LIMIT 7` appended, so the executed statement ends in
`LIMIT 7`; and for a string already containing `LIMIT 3`, the statement is
executed unchanged — no second LIMIT clause is appended.  The presence check is
case-insensitive: a statement containing lower-case `limit 3` is also left
unchanged. -/
theorem C8_sql_limit_enforcement (sql : String) :
    (pyContains (pyUpper sql) "LIMIT" = false →
      execute_query_with_limit sql 7 = pyRstripSemi sql ++ " LIMIT " ++ "7" ∧
      pyEndsWith (execute_query_with_limit sql 7) "LIMIT 7" = true) ∧
    (pyContains sql "LIMIT 3" = true → execute_query_with_limit sql 7 = sql) ∧
    (pyContains sql "limit 3" = true → execute_query_with_limit sql 7 = sql) := by
  refine ⟨?_, ?_, ?_⟩
  · intro h
    have hcheck : pyContains (pyStrip (pyUpper sql)) "LIMIT" = false := by
      by_contra hc
      rw [Bool.not_eq_false] at hc
      unfold pyContains at hc h
      rw [decide_eq_true_iff] at hc
      rw [decide_eq_false_iff_not] at h
      exact h (hc.trans (pyStripList_shrinks _))
    constructor
    · unfold execute_query_with_limit
      simp only [hcheck, Bool.false_eq_true, if_false]
      rfl
    · unfold execute_query_with_limit
      simp only [hcheck, Bool.false_eq_true, if_false]
      unfold pyEndsWith
      rw [decide_eq_true_iff]
      refine ⟨(pyRstripSemi sql).toList ++ [' '], ?_⟩
      show (pyRstripSemi sql).data ++ [' '] ++ ("LIMIT 7" : String).data
          = (pyRstripSemi sql ++ " LIMIT " ++ toString 7).data
      simp only [String.data_append]
      simp
      rfl
  · intro h
    have hupper : pyContains (pyUpper sql) "LIMIT" = true := by
      unfold pyContains at h ⊢
      rw [decide_eq_true_iff] at h ⊢
      have h1 : ("LIMIT 3" : String).toList.map pyUpperChar <:+: sql.toList.map pyUpperChar :=
        isInfixMap_of_mem pyUpperChar h
      have h2 : ("LIMIT 3" : String).toList.map pyUpperChar = ("LIMIT 3" : String).toList := by
        decide
      rw [h2] at h1
      have h3 : ("LIMIT" : String).toList <:+: ("LIMIT 3" : String).toList := by decide
      exact h3.trans h1
    have hcheck : pyContains (pyStrip (pyUpper sql)) "LIMIT" = true := by
      refine pyContains_of_pyContains_upper sql "LIMIT" (by decide) (by decide) hupper
    unfold execute_query_with_limit
    simp [hcheck]
  · intro h
    have hupper : pyContains (pyUpper sql) "LIMIT" = true := by
      unfold pyContains at h ⊢
      rw [decide_eq_true_iff] at h ⊢
      have h1 : ("limit 3" : String).toList.map pyUpperChar <:+: sql.toList.map pyUpperChar :=
        isInfixMap_of_mem pyUpperChar h
      have h2 : ("limit 3" : String).toList.map pyUpperChar = ("LIMIT 3" : String).toList := by
        decide
      rw [h2] at h1
      have h3 : ("LIMIT" : String).toList <:+: ("LIMIT 3" : String).toList := by decide
      exact h3.trans h1
    have hcheck : pyContains (pyStrip (pyUpper sql)) "LIMIT" = true := by
      refine pyContains_of_pyContains_upper sql "LIMIT" (by decide) (by decide) hupper
    unfold execute_query_with_limit
    simp [hcheck]

theorem C8_sql_limit_enforcement_witness :
    execute_query_with_limit "SELECT * FROM events;" 7
        = "SELECT * FROM events LIMIT 7" ∧
    execute_query_with_limit "SELECT * FROM events LIMIT 3" 7
        = "SELECT * FROM events LIMIT 3" := by
  constructor
  · have h := (C8_sql_limit_enforcement "SELECT * FROM events;").1 (by decide)
    rw [h.1]
    decide
  · exact (C8_sql_limit_enforcement "SELECT * FROM events LIMIT 3").2.1 (by decide)

/-- C10: for every SQL string in which the character sequence `limit` occurs
anywhere in any letter case — including as part of an identifier or inside a
string literal, not as an actual LIMIT clause — `execute_query_with_limit`
executes the statement unchanged, with no LIMIT bound appended. -/
theorem C10_limit_check_is_textual (sql : String) (n : Nat)
    (h : pyContains (pyUpper sql) "LIMIT" = true) :
    execute_query_with_limit sql n = sql := by
  have hcheck : pyContains (pyStrip (pyUpper sql)) "LIMIT" = true :=
    pyContains_of_pyContains_upper sql "LIMIT" (by decide) (by decide) h
  unfold execute_query_with_limit
  simp [hcheck]

theorem C10_limit_check_is_textual_witness :
    execute_query_with_limit "SELECT limitless_count FROM events" 7
        = "SELECT limitless_count FROM events" :=
  C10_limit_check_is_textual "SELECT limitless_count FROM events" 7 (by decide)

/-! ### ChatRequest validation (src/src/api/models.py, lines 8-12) and the
chat endpoint's top_k resolution (src/src/api/server.py, line 210) -/

/-- Model of pydantic validation of `ChatRequest`: `query` carries
`min_length=1`; `top_k` is `Optional[int]` with no further constraint. -/
def chatRequestValid (query : String) (_top_k : Option Int) : Bool :=
  decide (1 ≤ query.length)

/-- Model of `top_k = request.top_k or (config.top_k if config else 5)` in the
chat endpoint: Python `or` replaces a falsy value (`None` or `0`) by the
default. -/
def chatEffectiveTopK (top_k : Option Int) (default : Int) : Int :=
  match top_k with
  | none => default
  | some v => if v = 0 then default else v

/-- C9 counterexample: a chat request whose `top_k` is negative passes schema
validation and is handed to the retrieval pipeline with that negative value,
contradicting the claim that a zero or negative `top_k` fails validation. -/
theorem C9_counterexample :
    chatRequestValid "how many patients are male" (some (-3)) = true ∧
    chatEffectiveTopK (some (-3)) 5 = -3 ∧
    chatRequestValid "" none = false := by
  refine ⟨by decide, by decide, by decide⟩

/-- C9 (amended): schema validation rejects exactly the empty query and places
no constraint on `top_k`; the server replaces an absent or zero `top_k` by the
configured default (Python `or` on a falsy value) and passes any non-zero
value — including negative ones — through to the retrieval pipeline. -/
theorem C9_chat_request_validation (query : String) (top_k : Option Int) (default : Int) :
    (chatRequestValid query top_k = true ↔ 1 ≤ query.length) ∧
    chatEffectiveTopK none default = default ∧
    chatEffectiveTopK (some 0) default = default ∧
    (∀ v : Int, v ≠ 0 → chatEffectiveTopK (some v) default = v) := by
  refine ⟨?_, rfl, by simp [chatEffectiveTopK], ?_⟩
  · unfold chatRequestValid
    exact decide_eq_true_iff
  · intro v hv
    simp [chatEffectiveTopK, hv]

theorem C9_chat_request_validation_witness :
    chatRequestValid "list adverse events" (some 2) = true ∧
    chatEffectiveTopK (some (-7)) 5 = -7 := by
  constructor
  · exact (C9_chat_request_validation "list adverse events" (some 2) 5).1.mpr (by decide)
  · exact (C9_chat_request_validation "" (some (-7)) 5).2.2.2 (-7) (by decide)

/-! ### Migration tool: column-name cleaning and integer type inference
(src/scripts/migrate_sas_to_mysql_optimized.py, lines 61-63 and 82-87) -/

/-- Model of `clean_column_name`: spaces, dashes and dots become underscores
and the result is lower-cased. -/
def clean_column_name (col : String) : String :=
  pyLower ⟨col.toList.map (fun c => if c = ' ' ∨ c = '-' ∨ c = '.' then '_' else c)⟩

/-- Model of `get_mysql_type` restricted to integer-dtype columns (lines
82-87): `INT` when the column name ends in `FLG` or `CD`, else `BIGINT`. -/
def mysql_integer_type (col_name : String) : String :=
  if pyEndsWith col_name "FLG" || pyEndsWith col_name "CD" then "INT" else "BIGINT"

theorem pyLowerChar_ne_G : ∀ b, pyLowerChar b ≠ 'G' := by
  intro b
  unfold pyLowerChar
  split <;> simp_all

theorem pyLowerChar_ne_D : ∀ b, pyLowerChar b ≠ 'D' := by
  intro b
  unfold pyLowerChar
  split <;> simp_all

/-- C7 (code bug): after the migration tool's column-name cleaning, every
integer column is typed `BIGINT`: the cleaned name is lower-cased, so the
upper-case `FLG`/`CD` suffix tests in `get_mysql_type` can never fire.  The
un-cleaned upper-case name would have been typed `INT`, which is the intent
the specification describes. -/
theorem C7_integer_type_inference :
    (∀ raw : String, mysql_integer_type (clean_column_name raw) = "BIGINT") ∧
    mysql_integer_type (clean_column_name "AESERFLG") = "BIGINT" ∧
    mysql_integer_type "AESERFLG" = "INT" := by
  refine ⟨?_, by decide, by decide⟩
  intro raw
  have hG : pyEndsWith (clean_column_name raw) "FLG" = false := by
    unfold pyEndsWith
    rw [decide_eq_false_iff_not]
    intro hsuf
    obtain ⟨t, ht⟩ := hsuf
    have hmem : 'G' ∈ (clean_column_name raw).toList := by
      rw [← ht]
      simp
    have : 'G' ∈ (raw.toList.map
        (fun c => if c = ' ' ∨ c = '-' ∨ c = '.' then '_' else c)).map pyLowerChar := hmem
    obtain ⟨b, _, hb⟩ := List.mem_map.mp this
    exact pyLowerChar_ne_G b hb
  have hD : pyEndsWith (clean_column_name raw) "CD" = false := by
    unfold pyEndsWith
    rw [decide_eq_false_iff_not]
    intro hsuf
    obtain ⟨t, ht⟩ := hsuf
    have hmem : 'D' ∈ (clean_column_name raw).toList := by
      rw [← ht]
      simp
    have : 'D' ∈ (raw.toList.map
        (fun c => if c = ' ' ∨ c = '-' ∨ c = '.' then '_' else c)).map pyLowerChar := hmem
    obtain ⟨b, _, hb⟩ := List.mem_map.mp this
    exact pyLowerChar_ne_D b hb
  unfold mysql_integer_type
  simp [hG, hD]

/-! ### Migration tool: primary-key selection
(src/scripts/migrate_sas_to_mysql_optimized.py, lines 149-209) -/

/-- The fixed composite-key map of `create_table_with_schema`. -/
def composite_key_candidates : List (String × List String) :=
  [("events", ["subjid", "aeid", "aeseqid"]),
   ("lesions", ["subjid", "lsid"]),
   ("visit", ["subjid", "visfwdid"]),
   ("vitals", ["subjid", "visfwdid", "vstestcd"]),
   ("cmtpy", ["subjid", "cmid"]),
   ("sdytrt", ["subjid", "sdytrtid"]),
   ("ttevent", ["subjid", "ttecd"])]

/-- Model of the primary-key columns declared by `create_table_with_schema`
for a table with the given (cleaned) column names; `none` means no PRIMARY KEY
clause is emitted.  Mirrors lines 149-209: at most one of `subjid`/`usubjid`
is collected as a candidate, the single-candidate branch emits that column,
and the composite-key branch is only reached with two or more candidates. -/
def primaryKeyColumns (table_name : String) (cols : List String) : Option (List String) :=
  let primary_key_cols :=
    (if cols.contains "subjid" then ["subjid"] else []) ++
    (if cols.contains "usubjid" && !(cols.contains "subjid") then ["usubjid"] else [])
  if primary_key_cols.isEmpty then none
  else if primary_key_cols.length = 1 then some primary_key_cols
  else
    match composite_key_candidates.lookup table_name with
    | some composite_cols =>
        let existing := composite_cols.filter (fun c => cols.contains c)
        if existing.isEmpty then none else some existing
    | none => some (primary_key_cols.take 1)

/-- C6 (code bug): for the `events` table whose data contains the full
composite key `subjid, aeid, aeseqid`, the migration tool declares the single
column `subjid` as primary key, not the composite subset; in fact the declared
primary key never has more than one column for any table, because at most one
of `subjid`/`usubjid` ever enters the candidate list and the composite branch
requires at least two candidates. -/
theorem C6_primary_key_selection :
    primaryKeyColumns "events" ["subjid", "aeid", "aeseqid", "aeterm"] = some ["subjid"] ∧
    (∀ (t : String) (cols : List String),
      ((primaryKeyColumns t cols).map List.length).getD 0 ≤ 1) := by
  refine ⟨by decide, ?_⟩
  intro t cols
  unfold primaryKeyColumns
  cases h1 : cols.contains "subjid" <;> cases h2 : cols.contains "usubjid" <;>
    simp [h1, h2]

/-! ### PromptExamples._clean_answer, co-occurrence branch
(src/src/utils/prompt_examples.py, lines 47-67 and 183-188) -/

/-- A mapping-valued answer matching the co-occurrence table shape: keys `n`,
`a_responder_and_immune`, `b_responder_no_immune`, `c_nonresponder_immune`,
`d_nonresponder_no_immune` and the optional key `odds_ratio` (modelled as the
field `odds_ratio_field`, `none` when the key is absent). -/
structure CoocAnswer where
  n : Int
  a_responder_and_immune : Int
  b_responder_no_immune : Int
  c_nonresponder_immune : Int
  d_nonresponder_no_immune : Int
  odds_ratio_field : Option ℚ

/-- The contingency-table summary string produced by the `n > 0` branch of
`PromptExamples._clean_answer` (lines 62-67). -/
def coocSummary (ans : CoocAnswer) : String :=
  "Analysis of " ++ (toString ans.n ++ " patients") ++ " shows: " ++
  (toString ans.a_responder_and_immune ++ " responders with immune-related AEs") ++ ", " ++
  (toString ans.b_responder_no_immune ++ " responders without immune AEs") ++ ", " ++
  (toString ans.c_nonresponder_immune ++ " non-responders with immune AEs") ++ ", and " ++
  (toString ans.d_nonresponder_no_immune ++ " non-responders without immune AEs") ++ "."

/-- Model of `PromptExamples._clean_answer` restricted to answers of the
co-occurrence table shape: the branch at lines 56-67 followed by the join at
lines 183-185.  Note that the runtime implementation never reads the
`odds_ratio` key. -/
def clean_answer_cooc (ans : CoocAnswer) : Option String :=
  let natural_parts : List String :=
    if 0 < ans.n then [coocSummary ans] else []
  if !natural_parts.isEmpty then some (" ".intercalate natural_parts) else none

theorem pyContains_of_split (s pre mid post : String) (h : s = pre ++ mid ++ post) :
    pyContains s mid = true := by
  subst h
  unfold pyContains
  rw [decide_eq_true_iff]
  exact ⟨pre.data, post.data, by simp⟩

theorem intercalate_singleton (x : String) : " ".intercalate [x] = x := rfl

/-- C5 counterexample: on the spec's own example extended with an explicit
`odds_ratio` of 1.5, the runtime Q&A normalization returns the plain
contingency summary — containing "12 patients" — with no odds-ratio sentence:
neither the word "odds" nor the 2-decimal rendering "1.50" occurs in the
output, contradicting the claim that an odds-ratio sentence is appended. -/
theorem C5_counterexample :
    clean_answer_cooc ⟨12, 3, 4, 2, 3, some (3/2)⟩ =
      some ("Analysis of 12 patients shows: 3 responders with immune-related AEs, " ++
        "4 responders without immune AEs, 2 non-responders with immune AEs, " ++
        "and 3 non-responders without immune AEs.") ∧
    pyContains ("Analysis of 12 patients shows: 3 responders with immune-related AEs, " ++
        "4 responders without immune AEs, 2 non-responders with immune AEs, " ++
        "and 3 non-responders without immune AEs.") "odds" = false ∧
    pyContains ("Analysis of 12 patients shows: 3 responders with immune-related AEs, " ++
        "4 responders without immune AEs, 2 non-responders with immune AEs, " ++
        "and 3 non-responders without immune AEs.") "1.50" = false ∧
    pyContains ("Analysis of 12 patients shows: 3 responders with immune-related AEs, " ++
        "4 responders without immune AEs, 2 non-responders with immune AEs, " ++
        "and 3 non-responders without immune AEs.") "12 patients" = true := by
  refine ⟨by decide, by decide, by decide, by decide⟩

/-- C5 (amended): for every co-occurrence-shaped answer with `n > 0`, the
runtime normalization returns the one-paragraph contingency summary, which
contains the patient total (`"<n> patients"`) and all four sub-counts with
their labels; the `odds_ratio` key is ignored entirely — the result is
identical whether or not the key is present, so no odds-ratio sentence is
appended. -/
theorem C5_cooc_normalization (ans : CoocAnswer) (h : 0 < ans.n) :
    clean_answer_cooc ans = some (coocSummary ans) ∧
    pyContains (coocSummary ans) (toString ans.n ++ " patients") = true ∧
    pyContains (coocSummary ans)
      (toString ans.a_responder_and_immune ++ " responders with immune-related AEs") = true ∧
    pyContains (coocSummary ans)
      (toString ans.b_responder_no_immune ++ " responders without immune AEs") = true ∧
    pyContains (coocSummary ans)
      (toString ans.c_nonresponder_immune ++ " non-responders with immune AEs") = true ∧
    pyContains (coocSummary ans)
      (toString ans.d_nonresponder_no_immune ++ " non-responders without immune AEs") = true ∧
    clean_answer_cooc ans = clean_answer_cooc
      { ans with odds_ratio_field := none } := by
  refine ⟨?_, ?_, ?_, ?_, ?_, ?_, ?_⟩
  · unfold clean_answer_cooc
    simp only [h, if_true]
    rw [intercalate_singleton]
    rfl
  · refine pyContains_of_split _ "Analysis of " _
      (" shows: " ++
        (toString ans.a_responder_and_immune ++ " responders with immune-related AEs") ++ ", " ++
        (toString ans.b_responder_no_immune ++ " responders without immune AEs") ++ ", " ++
        (toString ans.c_nonresponder_immune ++ " non-responders with immune AEs") ++ ", and " ++
        (toString ans.d_nonresponder_no_immune ++ " non-responders without immune AEs") ++ ".") ?_
    apply String.ext
    simp [coocSummary]
  · refine pyContains_of_split _ ("Analysis of " ++ (toString ans.n ++ " patients") ++ " shows: ") _
      (", " ++
        (toString ans.b_responder_no_immune ++ " responders without immune AEs") ++ ", " ++
        (toString ans.c_nonresponder_immune ++ " non-responders with immune AEs") ++ ", and " ++
        (toString ans.d_nonresponder_no_immune ++ " non-responders without immune AEs") ++ ".") ?_
    apply String.ext
    simp [coocSummary]
  · refine pyContains_of_split _
      ("Analysis of " ++ (toString ans.n ++ " patients") ++ " shows: " ++
        (toString ans.a_responder_and_immune ++ " responders with immune-related AEs") ++ ", ") _
      (", " ++
        (toString ans.c_nonresponder_immune ++ " non-responders with immune AEs") ++ ", and " ++
        (toString ans.d_nonresponder_no_immune ++ " non-responders without immune AEs") ++ ".") ?_
    apply String.ext
    simp [coocSummary]
  · refine pyContains_of_split _
      ("Analysis of " ++ (toString ans.n ++ " patients") ++ " shows: " ++
        (toString ans.a_responder_and_immune ++ " responders with immune-related AEs") ++ ", " ++
        (toString ans.b_responder_no_immune ++ " responders without immune AEs") ++ ", ") _
      (", and " ++
        (toString ans.d_nonresponder_no_immune ++ " non-responders without immune AEs") ++ ".") ?_
    apply String.ext
    simp [coocSummary]
  · refine pyContains_of_split _
      ("Analysis of " ++ (toString ans.n ++ " patients") ++ " shows: " ++
        (toString ans.a_responder_and_immune ++ " responders with immune-related AEs") ++ ", " ++
        (toString ans.b_responder_no_immune ++ " responders without immune AEs") ++ ", " ++
        (toString ans.c_nonresponder_immune ++ " non-responders with immune AEs") ++ ", and ") _
      "." ?_
    apply String.ext
    simp [coocSummary]
  · cases ans
    rfl

theorem C5_cooc_normalization_witness :
    clean_answer_cooc ⟨12, 3, 4, 2, 3, none⟩ = some (coocSummary ⟨12, 3, 4, 2, 3, none⟩) ∧
    pyContains (coocSummary ⟨12, 3, 4, 2, 3, none⟩)
      (toString (12 : Int) ++ " patients") = true := by
  have h := C5_cooc_normalization ⟨12, 3, 4, 2, 3, none⟩ (by decide)
  exact ⟨h.1, h.2.1⟩

/-! ### SQLGenerator heuristic path (src/src/utils/sql_generator.py)

The module imports `os`, `Path`, `Any`, `OpenAI`, `Config` and `get_logger`
but never `re`, although `_extract_conditions` calls `re.search` and
`re.finditer`; executing the heuristic path therefore raises `NameError`.
The pure keyword/regex logic is embedded below so that the behaviour the code
would have with the import present can also be settled. -/

/-- Names bound at module level in src/src/utils/sql_generator.py (lines
1-15); `re` is not among them. -/
def sql_generator_imported_names : List String :=
  ["os", "Path", "Any", "OpenAI", "Config", "get_logger", "logger"]

/-- `TABLE_MAPPINGS` (lines 44-126) as an ordered association list in Python
dict-literal insertion order.  The literal assigns the key `"response"` twice
(`"lesions"` at line 68, `"bor"` at line 108); under Python dict semantics the
key keeps its first position and receives the last value, so it appears once
below, at its first position, with value `"bor"`. -/
def TABLE_MAPPINGS : List (String × String) :=
  [("patient", "subjinfo"), ("patients", "subjinfo"), ("subject", "subjinfo"),
   ("subjects", "subjinfo"), ("demographic", "subjinfo"), ("demographics", "subjinfo"),
   ("baseline", "subjinfo"),
   ("event", "events"), ("events", "events"), ("adverse", "events"),
   ("adverse_event", "events"), ("adverse_events", "events"), ("ae", "events"),
   ("safety", "events"),
   ("lesion", "lesions"), ("lesions", "lesions"), ("tumor", "lesions"),
   ("tumors", "lesions"), ("response", "bor"),
   ("visit", "visit"), ("visits", "visit"), ("schedule", "visit"),
   ("vital", "vitals"), ("vitals", "vitals"), ("vital_sign", "vitals"),
   ("vital_signs", "vitals"),
   ("medication", "cmtpy"), ("medications", "cmtpy"), ("concomitant", "cmtpy"),
   ("cm", "cmtpy"),
   ("treatment", "sdytrt"), ("treatments", "sdytrt"), ("dose", "sdytrt"),
   ("dosing", "sdytrt"), ("study_treatment", "sdytrt"),
   ("time_to_event", "ttevent"), ("survival", "ttevent"), ("progression", "ttevent"),
   ("tte", "ttevent"),
   ("disposition", "disposit"), ("completion", "disposit"), ("status", "disposit"),
   ("bor", "bor"), ("best_response", "bor"),
   ("diagnosis", "diag"), ("diagnostic", "diag"),
   ("exposure", "exsum"), ("exposure_summary", "exsum"),
   ("history", "history"), ("medical_history", "history"), ("prior", "history"),
   ("progressive_disease", "pdsumm"), ("pd", "pdsumm")]

/-- `COLUMN_MAPPINGS` (lines 128-174) as an ordered association list. -/
def COLUMN_MAPPINGS : List (String × String) :=
  [("age", "ageyr"), ("age_years", "ageyr"), ("sex", "sex"), ("gender", "sex"),
   ("race", "race"), ("ethnicity", "ethnic"), ("country", "country"),
   ("subject_id", "subjid"), ("subjectid", "subjid"), ("patient_id", "subjid"),
   ("usubjid", "usubjid"), ("unique_subject_id", "usubjid"),
   ("treatment", "trt"), ("treatment_arm", "trt"), ("arm", "trt"),
   ("treatment_sort", "trtsort"),
   ("visit", "visfwdid"), ("visit_id", "visfwdid"), ("visit_number", "visfwdid"),
   ("visit_date", "visdt"), ("visit_date_char", "visdtc"),
   ("adverse_event", "aeterm"), ("event_term", "aeterm"), ("event_start", "aestdt"),
   ("event_end", "aeendt"), ("severity", "aesevvis"), ("serious", "saeasflg"),
   ("lesion_id", "lsid"), ("lesion_name", "lsname"), ("assessment_date", "lsasmdt"),
   ("vital_test", "vstestcd"), ("vital_test_name", "vstest")]

/-- Model of `_extract_table` (lines 295-301): the first dictionary key that
occurs as a substring of the query wins; default table `events`. -/
def extract_table (query : String) : String :=
  match TABLE_MAPPINGS.find? (fun kv => pyContains query kv.1) with
  | some kv => kv.2
  | none => "events"

/-- ASCII digit test (`\d` in the embedded regexes). -/
def pyIsDigit (c : Char) : Bool := '0' ≤ c && c ≤ '9'

/-- Word-character test (`\w` in the embedded regexes, ASCII model). -/
def isWordChar (c : Char) : Bool :=
  ('a' ≤ c && c ≤ 'z') || ('A' ≤ c && c ≤ 'Z') || ('0' ≤ c && c ≤ '9') || c = '_'

/-- Attempt to match one alternative of `(>|>=|<|<=|=)` followed by
`\s*(\d+)`, returning the operator, the digits, and the remaining input. -/
def tryOp (cand : List Char) (l1 : List Char) : Option (String × String × List Char) :=
  if l1.take cand.length = cand then
    let l2 := (l1.drop cand.length).dropWhile pyIsSpace
    let digits := l2.takeWhile pyIsDigit
    if digits.isEmpty then none
    else some (⟨cand⟩, ⟨digits⟩, l2.drop digits.length)
  else none

/-- Match `\s*(>|>=|<|<=|=)\s*(\d+)` at the start of `l`.  The alternatives
are tried in the regex's order with backtracking: an alternative only succeeds
if the digits can also be matched, exactly as Python's `re` behaves. -/
def matchOpNumCore (l1 : List Char) : Option (String × String × List Char) :=
  match tryOp ['>'] l1 with
  | some r => some r
  | none =>
    match tryOp ['>', '='] l1 with
    | some r => some r
    | none =>
      match tryOp ['<'] l1 with
      | some r => some r
      | none =>
        match tryOp ['<', '='] l1 with
        | some r => some r
        | none => tryOp ['='] l1

/-- Leading `\s*` of the operator/number pattern, then the alternatives. -/
def matchOpNum (l : List Char) : Option (String × String × List Char) :=
  matchOpNumCore (l.dropWhile pyIsSpace)

theorem length_dropWhile_le' (p : Char → Bool) (l : List Char) :
    (l.dropWhile p).length ≤ l.length :=
  (List.dropWhile_suffix p).length_le

theorem length_takeWhile_le' (p : Char → Bool) (l : List Char) :
    (l.takeWhile p).length ≤ l.length :=
  (List.takeWhile_prefix p).length_le

theorem tryOp_length_lt (cand l1 : List Char) (o n : String) (r : List Char)
    (hc : cand ≠ []) (h : tryOp cand l1 = some (o, n, r)) : r.length < l1.length := by
  unfold tryOp at h
  by_cases h1 : l1.take cand.length = cand
  · simp only [h1, if_true] at h
    by_cases h2 : (((l1.drop cand.length).dropWhile pyIsSpace).takeWhile pyIsDigit).isEmpty = true
    · simp [h2] at h
    · simp only [h2, Bool.false_eq_true, if_false, Option.some.injEq, Prod.mk.injEq] at h
      obtain ⟨-, -, hr⟩ := h
      subst hr
      have hd : 1 ≤ (((l1.drop cand.length).dropWhile pyIsSpace).takeWhile pyIsDigit).length := by
        cases hcase : ((l1.drop cand.length).dropWhile pyIsSpace).takeWhile pyIsDigit with
        | nil => rw [hcase] at h2; exact absurd rfl h2
        | cons a b => simp
      have h3 : ((l1.drop cand.length).dropWhile pyIsSpace).length ≤ l1.length - cand.length := by
        calc ((l1.drop cand.length).dropWhile pyIsSpace).length
            ≤ (l1.drop cand.length).length := length_dropWhile_le' _ _
          _ = l1.length - cand.length := List.length_drop _ _
      have h4 : (((l1.drop cand.length).dropWhile pyIsSpace).takeWhile pyIsDigit).length
          ≤ ((l1.drop cand.length).dropWhile pyIsSpace).length := length_takeWhile_le' _ _
      have h5 : cand.length ≥ 1 := by
        cases cand with
        | nil => exact absurd rfl hc
        | cons a b => simp
      have h6 : cand.length ≤ l1.length := by
        by_contra hcon
        push_neg at hcon
        have := congrArg List.length h1
        rw [List.length_take] at this
        omega
      rw [List.length_drop]
      omega
  · simp [h1] at h

theorem matchOpNumCore_length_lt (l1 : List Char) (o n : String) (r : List Char)
    (h : matchOpNumCore l1 = some (o, n, r)) : r.length < l1.length := by
  unfold matchOpNumCore at h
  cases h1 : tryOp ['>'] l1 with
  | some v =>
      rw [h1] at h
      simp only [Option.some.injEq] at h
      subst h
      exact tryOp_length_lt _ _ o n r (by decide) h1
  | none =>
    rw [h1] at h
    simp only at h
    cases h2 : tryOp ['>', '='] l1 with
    | some v =>
        rw [h2] at h
        simp only [Option.some.injEq] at h
        subst h
        exact tryOp_length_lt _ _ o n r (by decide) h2
    | none =>
      rw [h2] at h
      simp only at h
      cases h3 : tryOp ['<'] l1 with
      | some v =>
          rw [h3] at h
          simp only [Option.some.injEq] at h
          subst h
          exact tryOp_length_lt _ _ o n r (by decide) h3
      | none =>
        rw [h3] at h
        simp only at h
        cases h4 : tryOp ['<', '='] l1 with
        | some v =>
            rw [h4] at h
            simp only [Option.some.injEq] at h
            subst h
            exact tryOp_length_lt _ _ o n r (by decide) h4
        | none =>
          rw [h4] at h
          simp only at h
          exact tryOp_length_lt _ _ o n r (by decide) h

theorem matchOpNum_length_lt (l : List Char) (o n : String) (r : List Char)
    (h : matchOpNum l = some (o, n, r)) : r.length < l.length := by
  have h1 := matchOpNumCore_length_lt _ o n r h
  have h2 := length_dropWhile_le' pyIsSpace l
  omega

/-- Model of `re.search(r"age\s*(>|>=|<|<=|=)\s*(\d+)", query)` (line 308):
the leftmost position where the whole pattern matches, returning the operator
and digits groups. -/
def ageSearchAux : List Char → Option (String × String)
  | [] => none
  | l@(_ :: rest) =>
      if l.take 3 = ['a', 'g', 'e'] then
        match matchOpNum (l.drop 3) with
        | some (op, num, _) => some (op, num)
        | none => ageSearchAux rest
      else ageSearchAux rest

/-- Model of `re.finditer(r"(\w+)\s*(>|>=|<|<=|=)\s*(\d+)", query)` (lines
329-335): the list of non-overlapping matches, scanning left to right, as
`(identifier, operator, digits)` triples.  Greedy `\w+` can only be followed
by an operator at its maximal extent, so the word group is the maximal word
run at the match position. -/
def findNumCondsAux : Nat → List Char → List (String × String × String)
  | 0, _ => []
  | _, [] => []
  | fuel + 1, c :: rest =>
      if isWordChar c then
        let w := (c :: rest).takeWhile isWordChar
        match matchOpNum ((c :: rest).drop w.length) with
        | some (op, num, rest2) => (⟨w⟩, op, num) :: findNumCondsAux fuel rest2
        | none => findNumCondsAux fuel rest
      else findNumCondsAux fuel rest

/-- The scan with fuel equal to the input length; `findNumCondsAux_congr`
below shows that any sufficient fuel gives the same result, so the fuel is an
artefact of the encoding, not of the scan's semantics. -/
def findNumConds (l : List Char) : List (String × String × String) :=
  findNumCondsAux l.length l

theorem findNumCondsAux_nil (fuel : Nat) : findNumCondsAux fuel [] = [] := by
  cases fuel <;> rfl

theorem findNumCondsAux_congr :
    ∀ (fuel₁ fuel₂ : Nat) (l : List Char), l.length ≤ fuel₁ → l.length ≤ fuel₂ →
      findNumCondsAux fuel₁ l = findNumCondsAux fuel₂ l := by
  intro fuel₁
  induction fuel₁ with
  | zero =>
      intro fuel₂ l h1 h2
      have : l = [] := by
        cases l with
        | nil => rfl
        | cons c rest => simp at h1
      subst this
      rw [findNumCondsAux_nil, findNumCondsAux_nil]
  | succ f₁ ih =>
      intro fuel₂ l h1 h2
      cases l with
      | nil => rw [findNumCondsAux_nil, findNumCondsAux_nil]
      | cons c rest =>
          obtain ⟨f₂, rfl⟩ : ∃ f₂, fuel₂ = f₂ + 1 := by
            cases fuel₂ with
            | zero => simp at h2
            | succ f₂ => exact ⟨f₂, rfl⟩
          show findNumCondsAux (f₁ + 1) (c :: rest) = findNumCondsAux (f₂ + 1) (c :: rest)
          rw [findNumCondsAux, findNumCondsAux]
          by_cases hw : isWordChar c = true
          · simp only [hw, if_true]
            have hlen : rest.length ≤ f₁ ∧ rest.length ≤ f₂ := by
              constructor <;> simp at h1 h2 <;> omega
            cases hm : matchOpNum ((c :: rest).drop ((c :: rest).takeWhile isWordChar).length) with
            | some v =>
                obtain ⟨op, num, rest2⟩ := v
                have hr := matchOpNum_length_lt _ _ _ _ hm
                have hd : ((c :: rest).drop ((c :: rest).takeWhile isWordChar).length).length
                    ≤ (c :: rest).length := by
                  rw [List.length_drop]
                  omega
                have hg : (c :: rest).length = rest.length + 1 := by simp
                have : rest2.length ≤ f₁ ∧ rest2.length ≤ f₂ := by
                  constructor <;> omega
                simp only []
                rw [ih f₂ rest2 this.1 this.2]
            | none =>
                simp only []
                rw [ih f₂ rest hlen.1 hlen.2]
          · simp only [hw, Bool.false_eq_true, if_false]
            have hlen : rest.length ≤ f₁ ∧ rest.length ≤ f₂ := by
              constructor <;> simp at h1 h2 <;> omega
            exact ih f₂ rest hlen.1 hlen.2

/-- Model of `_extract_conditions` (lines 303-343) as it would behave with
`re` imported: age comparison, sex keywords, treatment-arm keywords, then the
generic numeric comparisons whose identifier must be a `COLUMN_MAPPINGS` key
(the source computes the mapped column name but builds the condition from the
raw `group(1)` identifier, so the mapping only acts as a filter). -/
def extract_conditions (query : String) : List String :=
  let conditions1 : List String :=
    match ageSearchAux query.toList with
    | some (op, value) => ["ageyr " ++ op ++ " " ++ value]
    | none => []
  let conditions2 : List String :=
    if pyContains query "male" && !(pyContains query "female") then
      conditions1 ++ ["sex = 1"]
    else if pyContains query "female" then conditions1 ++ ["sex = 2"]
    else conditions1
  let conditions3 : List String :=
    if pyContains query "treatment" || pyContains query "arm" then
      if pyContains query "arm a" || pyContains query "arm 1" then
        conditions2 ++ ["trt = \x27Arm A\x27"]
      else if pyContains query "arm b" || pyContains query "arm 2" then
        conditions2 ++ ["trt = \x27Arm B\x27"]
      else conditions2
    else conditions2
  (findNumConds query.toList).foldl
    (fun conds m =>
      if (COLUMN_MAPPINGS.lookup m.1).isSome then
        let condition := m.1 ++ " " ++ m.2.1 ++ " " ++ m.2.2
        if conds.contains condition then conds else conds ++ [condition]
      else conds)
    conditions3

/-- Model of `_extract_columns` (lines 345-359). -/
def extract_columns (query : String) : List String :=
  let c1 : List String :=
    if pyContains query "count" || pyContains query "how many" then ["COUNT(*) as count"]
    else if pyContains query "age" then ["ageyr"]
    else []
  let c2 : List String :=
    if pyContains query "sex" || pyContains query "gender" then ["sex"] else []
  let c3 : List String :=
    if pyContains query "treatment" then ["trt"] else []
  c1 ++ c2 ++ c3

/-- Model of `_generate_sql_simple` (lines 273-293) as it would behave with
`re` imported. -/
def generate_sql_simple (query : String) (limit : Nat) : String :=
  let query_lower := pyLower query
  let table := extract_table query_lower
  let conditions := extract_conditions query_lower
  let columns := extract_columns query_lower
  let select_clause := if !columns.isEmpty then ", ".intercalate columns else "*"
  let where_clause := if !conditions.isEmpty then " AND ".intercalate conditions else "1=1"
  "SELECT " ++ select_clause ++ " FROM " ++ table ++ " WHERE " ++ where_clause ++
    " LIMIT " ++ toString limit

/-- Model of actually calling `_generate_sql_simple`: the module never imports
`re`, so the call raises `NameError` at `re.search` (line 308) instead of
returning SQL text. -/
def generate_sql_simple_run (query : String) (limit : Nat) : Except String String :=
  if sql_generator_imported_names.contains "re" then
    Except.ok (generate_sql_simple query limit)
  else
    Except.error "NameError: name \x27re\x27 is not defined"

/-- C1 counterexample: calling the heuristic SQL path on the claim's second
phrase raises `NameError` rather than returning a SQL string (the module
never imports `re`), and even the intended logic routes the phrase to table
`subjinfo`, not `events`, because the mapping key `"subject"` is tested before
`"event"`. -/
theorem C1_counterexample :
    generate_sql_simple_run "list adverse events for subject 100" 10
        = Except.error "NameError: name \x27re\x27 is not defined" ∧
    extract_table (pyLower "list adverse events for subject 100") = "subjinfo" ∧
    ("subjinfo" : String) ≠ "events" := by
  refine ⟨rfl, by decide, by decide⟩

/-- C1 (amended): every call of the heuristic (non-LLM) SQL generation path
fails with `NameError` because the module uses `re` without importing it.
Modelling the intended logic with `re` available: the phrase "how many
patients are male" produces `SELECT COUNT(*) as count FROM subjinfo WHERE
sex = 1 LIMIT 10` — table `subjinfo` via "patient", `COUNT(*) as count`, and
the male-coded condition `sex = 1` — while the phrase "list adverse events for
subject 100" produces a statement over table `subjinfo` (the key "subject"
precedes "event" in `TABLE_MAPPINGS`), not `events`. -/
theorem C1_heuristic_sql_generation :
    (∀ (q : String) (limit : Nat),
      generate_sql_simple_run q limit
        = Except.error "NameError: name \x27re\x27 is not defined") ∧
    generate_sql_simple "how many patients are male" 10
        = "SELECT COUNT(*) as count FROM subjinfo WHERE sex = 1 LIMIT 10" ∧
    generate_sql_simple "list adverse events for subject 100" 10
        = "SELECT * FROM subjinfo WHERE 1=1 LIMIT 10" := by
  refine ⟨fun q limit => rfl, by decide, by decide⟩

/-! ### HybridRetriever (src/src/retrieval/hybrid.py) and PromptExamples.get_examples
(src/src/utils/prompt_examples.py, lines 254-283) -/

/-- Stable descending insertion: the new element goes after all elements with
a key that is not strictly smaller, which is exactly where Python's stable
`list.sort(key=..., reverse=True)` leaves it. -/
def pyInsertDesc {α : Type} (key : α → ℚ) (x : α) : List α → List α
  | [] => [x]
  | y :: ys => if key x ≤ key y then y :: pyInsertDesc key x ys else x :: y :: ys

/-- Stable descending sort by a rational key, extensionally equal to Python's
stable `list.sort(key=..., reverse=True)`. -/
def pySortByDesc {α : Type} (key : α → ℚ) (l : List α) : List α :=
  l.foldl (fun acc x => pyInsertDesc key x acc) []

theorem pyInsertDesc_perm {α : Type} (key : α → ℚ) (x : α) (l : List α) :
    List.Perm (pyInsertDesc key x l) (x :: l) := by
  induction l with
  | nil => exact List.Perm.refl _
  | cons y ys ih =>
      unfold pyInsertDesc
      by_cases h : key x ≤ key y
      · simp only [h, if_true]
        exact (ih.cons y).trans (List.Perm.swap _ _ _)
      · simp only [h, if_false]
        exact List.Perm.refl _

theorem pyInsertDesc_pairwise {α : Type} (key : α → ℚ) (x : α) (l : List α)
    (h : l.Pairwise (fun a b => key b ≤ key a)) :
    (pyInsertDesc key x l).Pairwise (fun a b => key b ≤ key a) := by
  induction l with
  | nil => simp [pyInsertDesc]
  | cons y ys ih =>
      rw [List.pairwise_cons] at h
      unfold pyInsertDesc
      by_cases hxy : key x ≤ key y
      · simp only [hxy, if_true]
        rw [List.pairwise_cons]
        constructor
        · intro a ha
          have hmem := (pyInsertDesc_perm key x ys).mem_iff.mp ha
          rcases List.mem_cons.mp hmem with rfl | hmem2
          · exact hxy
          · exact h.1 a hmem2
        · exact ih h.2
      · simp only [hxy, if_false]
        push_neg at hxy
        rw [List.pairwise_cons]
        constructor
        · intro a ha
          rcases List.mem_cons.mp ha with rfl | hmem2
          · exact le_of_lt hxy
          · exact le_trans (h.1 a hmem2) (le_of_lt hxy)
        · exact List.pairwise_cons.mpr h

theorem pySortByDesc_perm {α : Type} (key : α → ℚ) (l : List α) :
    List.Perm (pySortByDesc key l) l := by
  suffices h : ∀ (acc : List α),
      List.Perm (l.foldl (fun acc x => pyInsertDesc key x acc) acc) (acc ++ l) by
    simpa using h []
  induction l with
  | nil => intro acc; simp
  | cons x xs ih =>
      intro acc
      have h1 : (x :: xs).foldl (fun acc x => pyInsertDesc key x acc) acc
          = xs.foldl (fun acc x => pyInsertDesc key x acc) (pyInsertDesc key x acc) := rfl
      rw [h1]
      refine (ih _).trans ?_
      refine ((pyInsertDesc_perm key x acc).append_right xs).trans ?_
      exact List.perm_middle.symm.trans (by simp)

theorem pySortByDesc_pairwise {α : Type} (key : α → ℚ) (l : List α) :
    (pySortByDesc key l).Pairwise (fun a b => key b ≤ key a) := by
  suffices h : ∀ (acc : List α), acc.Pairwise (fun a b => key b ≤ key a) →
      (l.foldl (fun acc x => pyInsertDesc key x acc) acc).Pairwise
        (fun a b => key b ≤ key a) by
    exact h [] (by simp)
  induction l with
  | nil => intro acc hacc; simpa using hacc
  | cons x xs ih =>
      intro acc hacc
      exact ih _ (pyInsertDesc_pairwise key x acc hacc)

/-- A cached Q&A example (see §3 of the spec and `PromptExamples.load`). -/
structure QAExample where
  question : String
  answer : String
  source : String
deriving DecidableEq

/-- The retrieval-result record exchanged between the retrieval components:
`{corpus, chunk_id, score, text, metadata}`, with the `metadata["question"]`
entry of context results carried as `meta_question`. -/
structure RetrievalResult where
  corpus : String
  chunk_id : String
  score : ℚ
  text : String
  meta_question : String := ""
deriving DecidableEq

/-- Model of `PromptExamples.get_examples` (lines 254-283): when a non-empty
query is given and the cache is non-empty, examples are scored by the number
of query words occurring as substrings of the lowered question, stably sorted
by descending score, and truncated to `max_examples`. -/
def getExamples (cache : List QAExample) (max_examples : Nat) (query : String) :
    List QAExample :=
  let examples := cache
  let examples2 :=
    if !query.isEmpty && !examples.isEmpty then
      let query_lower := pyLower query
      let scored := examples.map (fun ex =>
        ((pySplitWs query_lower).countP (fun word => pyContains (pyLower ex.question) word), ex))
      (pySortByDesc (fun p => (p.1 : ℚ)) scored).map Prod.snd
    else examples
  examples2.take max_examples

/-- Model of the per-example similarity score of `_search_context`
(src/src/retrieval/hybrid.py, lines 296-329): Jaccard similarity of the word
sets, the fraction of query words exactly present, and a normalized count of
substring-level partial word matches, combined as
`0.7·jaccard + 0.2·exact + 0.1·min(partial, 1)` and capped at 1. -/
def contextScore (query question : String) : ℚ :=
  let query_words := (pySplitWs (pyLower query)).toFinset
  let question_words := (pySplitWs (pyLower question)).toFinset
  let exact_matches := query_words ∩ question_words
  let partial_matches : ℕ :=
    ((Finset.product query_words question_words).filter
      (fun p => pyContains p.2 p.1 || pyContains p.1 p.2)).card
  let union := query_words ∪ question_words
  let intersection := query_words ∩ question_words
  let jaccard : ℚ :=
    if union.card ≠ 0 then (intersection.card : ℚ) / (union.card : ℚ) else 0
  let similarity : ℚ :=
    jaccard * 0.7 +
    ((exact_matches.card : ℚ) / ((max query_words.card 1 : ℕ) : ℚ)) * 0.2 +
    min ((partial_matches : ℚ) / ((max query_words.card 1 : ℕ) : ℚ)) 1 * 0.1
  min similarity 1

/-- Model of `HybridRetriever._search_context` (lines 279-347): score the
candidate examples returned by `get_examples(top_k * 2, query)`, build context
results, sort by descending score, truncate to `top_k`. -/
def contextResult (query : String) (p : Nat × QAExample) : RetrievalResult :=
  { corpus := "context"
    chunk_id := "context_" ++ toString p.1
    score := contextScore query p.2.question
    text := p.2.answer
    meta_question := p.2.question }

def searchContext (cache : List QAExample) (query : String) (top_k : Nat) :
    List RetrievalResult :=
  let examples := getExamples cache (top_k * 2) query
  let results := examples.enum.map (contextResult query)
  (pySortByDesc (fun r => r.score) results).take top_k

/-- Model of the `has_good_context_match` test of `HybridRetriever.search`
(lines 125-130): the context results are non-empty and the top score exceeds
0.5. -/
def has_good_context_match (ctx : List RetrievalResult) : Bool :=
  !ctx.isEmpty && decide ((0.5 : ℚ) < ((ctx.head?.map (fun r => r.score)).getD 0))

/-- Routes for which `HybridRetriever.search` performs SQL-side search
(line 115). -/
def sas_routes : List String := ["sas", "both", "all", "sas+context"]

/-- Model of whether `HybridRetriever.search` invokes SQL generation (lines
121-152): only on a SQL-classified route, and only when the context cache had
no good match. -/
def sql_generation_invoked (route : String) (ctx : List RetrievalResult) : Bool :=
  sas_routes.contains route && !(has_good_context_match ctx)

theorem pyContains_self (s : String) : pyContains s s = true := by
  unfold pyContains
  exact decide_eq_true (List.infix_refl _)

theorem contextScore_le_one (query question : String) :
    contextScore query question ≤ 1 := by
  unfold contextScore
  exact min_le_right _ _

/-- A question word-for-word identical to the query saturates all three
similarity signals. -/
theorem contextScore_self (q : String) (hne : pySplitWs (pyLower q) ≠ []) :
    contextScore q q = 1 := by
  have hcard : 1 ≤ (pySplitWs (pyLower q)).toFinset.card := by
    obtain ⟨x, hx⟩ : ∃ x, x ∈ pySplitWs (pyLower q) := by
      cases h : pySplitWs (pyLower q) with
      | nil => exact absurd h hne
      | cons a b => exact ⟨a, List.mem_cons_self _ _⟩
    exact Finset.card_pos.mpr ⟨x, List.mem_toFinset.mpr hx⟩
  set W := (pySplitWs (pyLower q)).toFinset with hW
  have h0 : W.card ≠ 0 := by omega
  have h0q : ((W.card : ℚ)) ≠ 0 := Nat.cast_ne_zero.mpr h0
  have hmax : max W.card 1 = W.card := Nat.max_eq_left hcard
  have hdiag : W.card ≤
      ((Finset.product W W).filter
        (fun p => pyContains p.2 p.1 || pyContains p.1 p.2)).card := by
    have himage : (W.image (fun w => (w, w))) ⊆
        (Finset.product W W).filter (fun p => pyContains p.2 p.1 || pyContains p.1 p.2) := by
      intro p hp
      obtain ⟨w, hw, rfl⟩ := Finset.mem_image.mp hp
      rw [Finset.mem_filter]
      refine ⟨Finset.mem_product.mpr ⟨hw, hw⟩, ?_⟩
      simp [pyContains_self]
    have hinj : Function.Injective (fun w : String => (w, w)) := by
      intro a b hab
      exact (Prod.mk.injEq _ _ _ _).mp hab |>.1
    calc W.card = (W.image (fun w => (w, w))).card :=
          (Finset.card_image_of_injective W hinj).symm
      _ ≤ _ := Finset.card_le_card himage
  have hpart : (1 : ℚ) ≤
      (((((Finset.product W W).filter
        (fun p => pyContains p.2 p.1 || pyContains p.1 p.2)).card) : ℚ) / ((W.card : ℚ))) := by
    rw [one_le_div (by exact_mod_cast Nat.pos_of_ne_zero h0 : (0:ℚ) < (W.card : ℚ))]
    exact_mod_cast hdiag
  unfold contextScore
  rw [← hW]
  simp only [Finset.union_self, Finset.inter_self, hmax, h0, if_true, ne_eq,
    not_false_eq_true, div_self h0q]
  rw [min_eq_right hpart]
  norm_num

theorem mem_enumFrom_of_mem {α : Type} (a : α) :
    ∀ (l : List α) (n : Nat), a ∈ l → ∃ i, (i, a) ∈ l.enumFrom n := by
  intro l
  induction l with
  | nil => intro n h; simp at h
  | cons b bs ih =>
      intro n h
      rcases List.mem_cons.mp h with rfl | hmem
      · exact ⟨n, by simp [List.enumFrom]⟩
      · obtain ⟨i, hi⟩ := ih (n + 1) hmem
        refine ⟨i, ?_⟩
        simp only [List.enumFrom]
        exact List.mem_cons.mpr (Or.inr hi)

theorem mem_enum_of_mem {α : Type} (a : α) (l : List α) (h : a ∈ l) :
    ∃ i, (i, a) ∈ l.enum :=
  mem_enumFrom_of_mem a l 0 h

theorem searchContext_head_score
    (cache : List QAExample) (query : String) (ex : QAExample) (top_k : Nat)
    (hmem : ex ∈ getExamples cache (top_k * 2) query)
    (hq : ex.question = query)
    (hw : pySplitWs (pyLower query) ≠ [])
    (hk : 1 ≤ top_k) :
    ((searchContext cache query top_k).head?.map (fun r => r.score)) = some 1 := by
  have hr0score : (contextResult query (0, ex)).score = 1 := by
    show contextScore query ex.question = 1
    rw [hq]
    exact contextScore_self query hw
  obtain ⟨i, hi⟩ := mem_enum_of_mem ex (getExamples cache (top_k * 2) query) hmem
  have hr0 : contextResult query (i, ex)
      ∈ (getExamples cache (top_k * 2) query).enum.map (contextResult query) :=
    List.mem_map_of_mem _ hi
  have hall : ∀ r ∈ (getExamples cache (top_k * 2) query).enum.map (contextResult query),
      r.score ≤ 1 := by
    intro r hr
    obtain ⟨p, hp, rfl⟩ := List.mem_map.mp hr
    exact contextScore_le_one _ _
  have hperm := pySortByDesc_perm (fun r : RetrievalResult => r.score)
    ((getExamples cache (top_k * 2) query).enum.map (contextResult query))
  have hpair := pySortByDesc_pairwise (fun r : RetrievalResult => r.score)
    ((getExamples cache (top_k * 2) query).enum.map (contextResult query))
  have hr0s : contextResult query (i, ex) ∈ pySortByDesc (fun r : RetrievalResult => r.score)
      ((getExamples cache (top_k * 2) query).enum.map (contextResult query)) :=
    hperm.mem_iff.mpr hr0
  show (((pySortByDesc (fun r : RetrievalResult => r.score)
      ((getExamples cache (top_k * 2) query).enum.map (contextResult query))).take
        top_k).head?.map (fun r => r.score)) = some 1
  cases hsor : pySortByDesc (fun r : RetrievalResult => r.score)
      ((getExamples cache (top_k * 2) query).enum.map (contextResult query)) with
  | nil =>
      rw [hsor] at hr0s
      simp at hr0s
  | cons hd t =>
      have hhead : hd.score = 1 := by
        have hh1 : hd.score ≤ 1 := by
          refine hall hd (hperm.mem_iff.mp ?_)
          rw [hsor]
          exact List.mem_cons_self _ _
        have hh2 : (1 : ℚ) ≤ hd.score := by
          rw [hsor] at hr0s hpair
          rcases List.mem_cons.mp hr0s with heq | hmem2
          · rw [← heq]
            rw [hr0score] at *
            have : (contextResult query (i, ex)).score = 1 := by
              show contextScore query ex.question = 1
              rw [hq]
              exact contextScore_self query hw
            rw [this]
          · have hle := (List.pairwise_cons.mp hpair).1 _ hmem2
            have : (contextResult query (i, ex)).score = 1 := by
              show contextScore query ex.question = 1
              rw [hq]
              exact contextScore_self query hw
            rw [this] at hle
            exact hle
        linarith
      obtain ⟨m, rfl⟩ : ∃ m, top_k = m + 1 := ⟨top_k - 1, by omega⟩
      simp [List.take_succ_cons, hhead]

/-- A cache in which six examples with question `"ab"` precede an example
whose question `"a"` is word-for-word identical to the query `"a"`.  In
`get_examples` all seven tie at word-overlap score 1, the stable sort keeps
insertion order, and the `2 × top_k = 6` truncation drops the identical
example. -/
def C2cache : List QAExample :=
  [⟨"ab", "x1", "qa"⟩, ⟨"ab", "x2", "qa"⟩, ⟨"ab", "x3", "qa"⟩,
   ⟨"ab", "x4", "qa"⟩, ⟨"ab", "x5", "qa"⟩, ⟨"ab", "x6", "qa"⟩,
   ⟨"a", "hit", "qa"⟩]

section

attribute [local semireducible] Rat.mul Rat.inv Rat.add Rat.sub Rat.ofScientific

/-- C2 counterexample: the cache `C2cache` contains an example whose question
is word-for-word identical to the query `"a"`, yet `_search_context` (with its
`top_k = 3` call from `search`) does not return it at all — every returned
result stems from a `"ab"` example — and the top hit scores 1/10, not 1.0:
`get_examples`' word-overlap pre-selection, truncated at `2 × top_k`, dropped
the identical example (all seven candidates tie and the stable sort keeps
insertion order).  Consequently the good-match test fails and SQL generation
is invoked on the `sas` route rather than skipped. -/
theorem C2_counterexample :
    (⟨"a", "hit", "qa"⟩ : QAExample) ∈ C2cache ∧
    (⟨"a", "hit", "qa"⟩ : QAExample).question = "a" ∧
    ((searchContext C2cache "a" 3).head?.map (fun r => r.score)) = some (1/10) ∧
    (searchContext C2cache "a" 3).all
      (fun r => decide (r.meta_question ≠ "a")) = true ∧
    has_good_context_match (searchContext C2cache "a" 3) = false ∧
    sql_generation_invoked "sas" (searchContext C2cache "a" 3) = true := by
  refine ⟨by decide, by decide, by decide, by decide, by decide, by decide⟩

end

/-- C2 (amended): a cached example whose question is word-for-word identical
to the live query (the query having at least one word) receives the saturated
similarity score 1 — all three signals saturate in exact rational
arithmetic.  Provided the example is among the `2 × top_k` candidates that
`get_examples`' word-overlap pre-selection hands to `_search_context` (with
`top_k ≥ 1`), the first result `_search_context` returns carries that
saturated score 1; and `HybridRetriever.search`, on a SQL-classified route,
skips SQL generation entirely whenever the top context hit's score exceeds
0.5 — in particular for this query.  The survival proviso is necessary: the
`2 × top_k` truncation can drop the identical example (see the
counterexample), in which case it is not returned at all. -/
theorem C2_context_cache_short_circuit
    (cache : List QAExample) (query : String) (ex : QAExample) (top_k : Nat)
    (hmem : ex ∈ getExamples cache (top_k * 2) query)
    (hq : ex.question = query)
    (hw : pySplitWs (pyLower query) ≠ [])
    (hk : 1 ≤ top_k) :
    contextScore query ex.question = 1 ∧
    ((searchContext cache query top_k).head?.map (fun r => r.score)) = some 1 ∧
    (∀ (route : String) (ctx : List RetrievalResult),
        has_good_context_match ctx = true → sql_generation_invoked route ctx = false) ∧
    has_good_context_match (searchContext cache query top_k) = true := by
  have hhead := searchContext_head_score cache query ex top_k hmem hq hw hk
  refine ⟨by rw [hq]; exact contextScore_self query hw, hhead, ?_, ?_⟩
  · intro route ctx hgood
    unfold sql_generation_invoked
    rw [hgood]
    simp
  · unfold has_good_context_match
    cases hsc : (searchContext cache query top_k) with
    | nil => rw [hsc] at hhead; simp at hhead
    | cons hd t =>
        rw [hsc] at hhead
        simp only [List.head?_cons, Option.map_some] at hhead
        have : hd.score = 1 := Option.some.inj hhead
        simp [this]
        norm_num

theorem C2_context_cache_short_circuit_witness :
    contextScore "how many patients are enrolled"
      ("how many patients are enrolled" : String) = 1 ∧
    ((searchContext [⟨"how many patients are enrolled", "There are 120.", "qa"⟩]
        "how many patients are enrolled" 3).head?.map (fun r => r.score)) = some 1 := by
  have h := C2_context_cache_short_circuit
    [⟨"how many patients are enrolled", "There are 120.", "qa"⟩]
    "how many patients are enrolled"
    ⟨"how many patients are enrolled", "There are 120.", "qa"⟩
    3 (by decide) rfl (by decide) (by decide)
  exact ⟨h.1, h.2.1⟩

/-! ### HybridRetriever._combine_results_intelligently
(src/src/retrieval/hybrid.py, lines 349-415) -/

/-- Recommendations that include PDF results (line 382). -/
def use_pdf_recs : List String :=
  ["use_pdf", "use_both", "use_all", "use_pdf_sas", "use_pdf_context"]

/-- Recommendations that include SQL results (line 397). -/
def use_sas_recs : List String :=
  ["use_sas", "use_both", "use_all", "use_pdf_sas", "use_sas_context"]

/-- In-place score weighting `result["score"] = result.get("score", 0.0) * q`. -/
def scaleScore (q : ℚ) (r : RetrievalResult) : RetrievalResult :=
  { r with score := r.score * q }

/-- Model of `_combine_results_intelligently`: quality-gated inclusion of each
source, in-place score weighting (the `×1.3` cache boost and `×0.8` supplement
factor applied on top of the quality weight), stable descending sort by the
adjusted score, truncation to `2 × top_k` (written `top_k * 2` in the source).
`context_results=None` is modelled as the empty list, which the source treats
identically in every test it performs here. -/
def combine_results_intelligently
    (pdf_results sas_results context_results : List RetrievalResult)
    (recommendation : String)
    (pdf_quality sas_quality context_quality : ℚ) (top_k : Nat) :
    List RetrievalResult :=
  let use_context_as_sas := !context_results.isEmpty && sas_results.isEmpty
  let part1 : List RetrievalResult :=
    if use_pdf_recs.contains recommendation && decide ((0.3 : ℚ) < pdf_quality) then
      pdf_results.map (scaleScore pdf_quality)
    else []
  let part2 : List RetrievalResult :=
    if use_context_as_sas then
      if decide ((0.3 : ℚ) < context_quality) then
        context_results.map (scaleScore (context_quality * 1.3))
      else []
    else
      if use_sas_recs.contains recommendation && decide ((0.3 : ℚ) < sas_quality) then
        sas_results.map (scaleScore sas_quality)
      else []
  let part3 : List RetrievalResult :=
    if !context_results.isEmpty && !use_context_as_sas &&
        decide ((0.3 : ℚ) < context_quality) then
      context_results.map (scaleScore (context_quality * 0.8))
    else []
  (pySortByDesc (fun r => r.score) (part1 ++ part2 ++ part3)).take (top_k * 2)

theorem combine_mem_parts
    (pdf_results sas_results context_results : List RetrievalResult)
    (recommendation : String)
    (pdf_quality sas_quality context_quality : ℚ) (top_k : Nat)
    (r : RetrievalResult)
    (hr : r ∈ combine_results_intelligently pdf_results sas_results context_results
      recommendation pdf_quality sas_quality context_quality top_k) :
    (∃ r0 ∈ pdf_results, r = scaleScore pdf_quality r0 ∧
        (0.3 : ℚ) < pdf_quality) ∨
    (∃ r0 ∈ sas_results, r = scaleScore sas_quality r0 ∧
        (0.3 : ℚ) < sas_quality) ∨
    (∃ r0 ∈ context_results, (r = scaleScore (context_quality * 1.3) r0 ∨
        r = scaleScore (context_quality * 0.8) r0) ∧ (0.3 : ℚ) < context_quality) := by
  unfold combine_results_intelligently at hr
  have hr2 := List.mem_of_mem_take hr
  have hr3 := (pySortByDesc_perm _ _).mem_iff.mp hr2
  rcases List.mem_append.mp hr3 with hr4 | hr4
  rcases List.mem_append.mp hr4 with hr5 | hr5
  · -- part1
    by_cases hc : (use_pdf_recs.contains recommendation
        && decide ((0.3 : ℚ) < pdf_quality)) = true
    · rw [if_pos hc] at hr5
      obtain ⟨r0, hr0, rfl⟩ := List.mem_map.mp hr5
      exact Or.inl ⟨r0, hr0, rfl, of_decide_eq_true (Bool.and_elim_right hc)⟩
    · rw [if_neg hc] at hr5
      simp at hr5
  · -- part2
    by_cases husc : (!context_results.isEmpty && sas_results.isEmpty) = true
    · rw [if_pos husc] at hr5
      by_cases hq : decide ((0.3 : ℚ) < context_quality) = true
      · rw [if_pos hq] at hr5
        obtain ⟨r0, hr0, rfl⟩ := List.mem_map.mp hr5
        exact Or.inr (Or.inr ⟨r0, hr0, Or.inl rfl, of_decide_eq_true hq⟩)
      · rw [if_neg hq] at hr5
        simp at hr5
    · rw [if_neg husc] at hr5
      by_cases hc : (use_sas_recs.contains recommendation
          && decide ((0.3 : ℚ) < sas_quality)) = true
      · rw [if_pos hc] at hr5
        obtain ⟨r0, hr0, rfl⟩ := List.mem_map.mp hr5
        exact Or.inr (Or.inl ⟨r0, hr0, rfl, of_decide_eq_true (Bool.and_elim_right hc)⟩)
      · rw [if_neg hc] at hr5
        simp at hr5
  · -- part3
    by_cases hc : (!context_results.isEmpty && !(!context_results.isEmpty
        && sas_results.isEmpty) && decide ((0.3 : ℚ) < context_quality)) = true
    · rw [if_pos hc] at hr4
      obtain ⟨r0, hr0, rfl⟩ := List.mem_map.mp hr4
      exact Or.inr (Or.inr ⟨r0, hr0, Or.inr rfl, of_decide_eq_true (Bool.and_elim_right hc)⟩)
    · rw [if_neg hc] at hr4
      simp at hr4

/-- C3: for every fixed recommendation and per-source quality scores, the list
returned by `_combine_results_intelligently` is sorted by non-increasing
adjusted score, contains at most `2 × top_k` entries, and contains zero
results from any source whose quality score is ≤ 0.3, regardless of how many
raw results that source returned (sources are identified by the `corpus` tag
their results carry). -/
theorem C3_combine_results
    (pdf_results sas_results context_results : List RetrievalResult)
    (recommendation : String)
    (pdf_quality sas_quality context_quality : ℚ) (top_k : Nat)
    (hpdf : ∀ r ∈ pdf_results, r.corpus = "pdf")
    (hsas : ∀ r ∈ sas_results, r.corpus = "sas")
    (hctx : ∀ r ∈ context_results, r.corpus = "context") :
    (combine_results_intelligently pdf_results sas_results context_results
        recommendation pdf_quality sas_quality context_quality top_k).Pairwise
      (fun a b => b.score ≤ a.score) ∧
    (combine_results_intelligently pdf_results sas_results context_results
        recommendation pdf_quality sas_quality context_quality top_k).length
      ≤ 2 * top_k ∧
    (pdf_quality ≤ 0.3 →
      ∀ r ∈ combine_results_intelligently pdf_results sas_results context_results
        recommendation pdf_quality sas_quality context_quality top_k,
        r.corpus ≠ "pdf") ∧
    (sas_quality ≤ 0.3 →
      ∀ r ∈ combine_results_intelligently pdf_results sas_results context_results
        recommendation pdf_quality sas_quality context_quality top_k,
        r.corpus ≠ "sas") ∧
    (context_quality ≤ 0.3 →
      ∀ r ∈ combine_results_intelligently pdf_results sas_results context_results
        recommendation pdf_quality sas_quality context_quality top_k,
        r.corpus ≠ "context") := by
  have hdisj := combine_mem_parts pdf_results sas_results context_results
    recommendation pdf_quality sas_quality context_quality top_k
  refine ⟨?_, ?_, ?_, ?_, ?_⟩
  · unfold combine_results_intelligently
    exact List.Pairwise.take (pySortByDesc_pairwise _ _)
  · unfold combine_results_intelligently
    calc _ ≤ top_k * 2 := List.length_take_le _ _
      _ = 2 * top_k := Nat.mul_comm _ _
  · intro hq r hr
    rcases hdisj r hr with ⟨r0, hr0, rfl, hgt⟩ | ⟨r0, hr0, rfl, hgt⟩ |
        ⟨r0, hr0, heq, hgt⟩
    · exact absurd hgt (not_lt.mpr hq)
    · show (scaleScore sas_quality r0).corpus ≠ "pdf"
      show r0.corpus ≠ "pdf"
      rw [hsas r0 hr0]
      decide
    · rcases heq with rfl | rfl <;>
        · show r0.corpus ≠ "pdf"
          rw [hctx r0 hr0]
          decide
  · intro hq r hr
    rcases hdisj r hr with ⟨r0, hr0, rfl, hgt⟩ | ⟨r0, hr0, rfl, hgt⟩ |
        ⟨r0, hr0, heq, hgt⟩
    · show r0.corpus ≠ "sas"
      rw [hpdf r0 hr0]
      decide
    · exact absurd hgt (not_lt.mpr hq)
    · rcases heq with rfl | rfl <;>
        · show r0.corpus ≠ "sas"
          rw [hctx r0 hr0]
          decide
  · intro hq r hr
    rcases hdisj r hr with ⟨r0, hr0, rfl, hgt⟩ | ⟨r0, hr0, rfl, hgt⟩ |
        ⟨r0, hr0, heq, hgt⟩
    · show r0.corpus ≠ "context"
      rw [hpdf r0 hr0]
      decide
    · show r0.corpus ≠ "context"
      rw [hsas r0 hr0]
      decide
    · exact absurd hgt (not_lt.mpr hq)

theorem C3_combine_results_witness :
    ((combine_results_intelligently
        [⟨"pdf", "p0", 0.9, "pdf text", ""⟩]
        [⟨"sas", "sql_result_0", 1, "row", ""⟩, ⟨"sas", "sql_result_1", 0.9, "row2", ""⟩]
        [] "use_both" 0.8 0.2 0 1).length ≤ 2 * 1) ∧
    (∀ r ∈ combine_results_intelligently
        [⟨"pdf", "p0", 0.9, "pdf text", ""⟩]
        [⟨"sas", "sql_result_0", 1, "row", ""⟩, ⟨"sas", "sql_result_1", 0.9, "row2", ""⟩]
        [] "use_both" 0.8 0.2 0 1, r.corpus ≠ "sas") := by
  have h := C3_combine_results
    [⟨"pdf", "p0", 0.9, "pdf text", ""⟩]
    [⟨"sas", "sql_result_0", 1, "row", ""⟩, ⟨"sas", "sql_result_1", 0.9, "row2", ""⟩]
    [] "use_both" 0.8 0.2 0 1
    (by decide) (by decide) (by decide)
  exact ⟨h.2.1, h.2.2.2.1 (by norm_num)⟩

/-! ### chunk_text (src/src/indexers/common.py, lines 7-106) -/

/-- Scanner for `re.split(r"\n\s*\n", text)`: mode 0 accumulates the current
piece; mode 1 has seen a `\n` plus following non-newline whitespace (buffered,
reversed, in `buf`) and waits for a second `\n` to confirm a separator; mode 2
is inside a confirmed separator, which greedily extends through the last `\n`
of the whitespace run, with trailing non-newline whitespace (buffered in
`buf`) belonging to the next piece. -/
def parasAux : Nat → List Char → List Char → List Char → List (List Char)
  | 0, acc, _, [] => [acc.reverse]
  | 0, acc, _, c :: rest =>
      if c = '\n' then parasAux 1 acc ['\n'] rest
      else parasAux 0 (c :: acc) [] rest
  | 1, acc, buf, [] => [(buf ++ acc).reverse]
  | 1, acc, buf, c :: rest =>
      if c = '\n' then acc.reverse :: parasAux 2 [] [] rest
      else if pyIsSpace c then parasAux 1 acc (c :: buf) rest
      else parasAux 0 (c :: (buf ++ acc)) [] rest
  | 2, _, buf, [] => [buf.reverse]
  | 2, _, buf, c :: rest =>
      if c = '\n' then parasAux 2 [] [] rest
      else if pyIsSpace c then parasAux 2 [] (c :: buf) rest
      else parasAux 0 (c :: buf) [] rest
  | _ + 3, _, _, _ => []

/-- Model of `re.split(r"\n\s*\n", text)` (line 32). -/
def pySplitParas (s : String) : List String :=
  (parasAux 0 [] [] s.toList).map (fun l => ⟨l⟩)

/-- Scanner for `re.split(r"(?<=[.!?])\s+", para)`: a whitespace run directly
following `.`, `!` or `?` is a separator; `skipping` is true while consuming
the remainder of a separator run. -/
def sentsAux : Bool → List Char → List Char → List (List Char)
  | false, acc, [] => [acc.reverse]
  | false, acc, c :: rest =>
      if pyIsSpace c && (match acc with
          | p :: _ => p = '.' || p = '!' || p = '?'
          | [] => false) then
        acc.reverse :: sentsAux true [] rest
      else sentsAux false (c :: acc) rest
  | true, _, [] => [[]]
  | true, acc, c :: rest =>
      if pyIsSpace c then sentsAux true acc rest
      else sentsAux false [c] rest

/-- Model of `re.split(r"(?<=[.!?])\s+", para)` (line 57). -/
def pySplitSentences (s : String) : List String :=
  (sentsAux false [] s.toList).map (fun l => ⟨l⟩)

/-- The mutable loop state of `chunk_text`: completed chunks, the pieces of
the chunk under construction, and the tracked running length. -/
structure ChunkState where
  chunks : List String
  current_chunk : List String
  current_length : Nat

/-- Model of `"\n\n".join`. -/
def join2 : List String → String
  | [] => ""
  | [x] => x
  | x :: y :: xs => x ++ "\n\n" ++ join2 (y :: xs)

/-- Model of `" ".join`. -/
def joinSpace : List String → String
  | [] => ""
  | [x] => x
  | x :: y :: xs => x ++ " " ++ joinSpace (y :: xs)

/-- Model of `prev_chunk[-overlap_chars:] if len(prev_chunk) > overlap_chars
else prev_chunk` (lines 80 and 91). -/
def overlapSeed (prev : String) (overlap_chars : Nat) : String :=
  if overlap_chars < prev.length then ⟨prev.toList.drop (prev.length - overlap_chars)⟩
  else prev

/-- One iteration of the inner sentence loop of `chunk_text` (lines 61-85). -/
def sentStep (max_chars overlap_chars : Nat) (st : ChunkState) (sentenceRaw : String) :
    ChunkState :=
  let sentence := pyStrip sentenceRaw
  if sentence.isEmpty then st
  else
    let sent_length := sentence.length
    if st.current_length + sent_length ≤ max_chars then
      { st with current_chunk := st.current_chunk ++ [sentence],
                current_length := st.current_length + sent_length + 1 }
    else
      let chunks1 := if !st.current_chunk.isEmpty then
          st.chunks ++ [joinSpace st.current_chunk] else st.chunks
      if 0 < overlap_chars && !chunks1.isEmpty then
        let prev := chunks1.getLastD ""
        let overlap_text := overlapSeed prev overlap_chars
        let cur := if !overlap_text.isEmpty then [overlap_text, sentence] else [sentence]
        { chunks := chunks1, current_chunk := cur,
          current_length := (joinSpace cur).length }
      else
        { chunks := chunks1, current_chunk := [sentence], current_length := sent_length }

/-- One iteration of the paragraph loop of `chunk_text` (lines 38-96). -/
def paraStep (max_chars overlap_chars : Nat) (st : ChunkState) (paraRaw : String) :
    ChunkState :=
  let para := pyStrip paraRaw
  if para.isEmpty then st
  else
    let para_length := para.length
    if st.current_length + para_length ≤ max_chars then
      { st with current_chunk := st.current_chunk ++ [para],
                current_length := st.current_length + para_length + 2 }
    else
      let chunks1 := if !st.current_chunk.isEmpty then
          st.chunks ++ [join2 st.current_chunk] else st.chunks
      if max_chars < para_length then
        (pySplitSentences para).foldl (sentStep max_chars overlap_chars)
          { chunks := chunks1, current_chunk := [], current_length := 0 }
      else
        if 0 < overlap_chars && !chunks1.isEmpty then
          let prev := chunks1.getLastD ""
          let overlap_text := overlapSeed prev overlap_chars
          let cur := if !overlap_text.isEmpty then [overlap_text, para] else [para]
          { chunks := chunks1, current_chunk := cur,
            current_length := (join2 cur).length }
        else
          { chunks := chunks1, current_chunk := [para], current_length := para_length }

/-- Model of `chunk_text(text, max_tokens, overlap)`. -/
def chunk_text (text : String) (max_tokens : Nat) (overlap : Nat) : List String :=
  if text.isEmpty || (pyStrip text).isEmpty then []
  else
    let max_chars := max_tokens * 4
    let overlap_chars := overlap * 4
    let final := (pySplitParas text).foldl (paraStep max_chars overlap_chars)
      { chunks := [], current_chunk := [], current_length := 0 }
    let chunks := if !final.current_chunk.isEmpty then
        final.chunks ++ [join2 final.current_chunk] else final.chunks
    chunks.filter (fun c => decide (50 < (pyStrip c).length))

theorem length_mk_list (l : List Char) : (⟨l⟩ : String).length = l.length := rfl

theorem join2_length_append (l : List String) (x : String) :
    (join2 (l ++ [x])).length =
      if l.isEmpty then x.length else (join2 l).length + 2 + x.length := by
  induction l with
  | nil => simp [join2]
  | cons a as ih =>
      cases as with
      | nil =>
          show (join2 [a, x]).length = (join2 [a]).length + 2 + x.length
          show (a ++ "\n\n" ++ x).length = a.length + 2 + x.length
          simp [String.length_append]
          rfl
      | cons b bs =>
          have hl2 : ("\n\n" : String).length = 2 := rfl
          have h1 : (join2 ((a :: b :: bs) ++ [x])).length
              = a.length + 2 + (join2 ((b :: bs) ++ [x])).length := by
            show (a ++ "\n\n" ++ join2 ((b :: bs) ++ [x])).length = _
            simp only [String.length_append]
            omega
          have h2 : (join2 (a :: b :: bs)).length
              = a.length + 2 + (join2 (b :: bs)).length := by
            show (a ++ "\n\n" ++ join2 (b :: bs)).length = _
            simp only [String.length_append]
            omega
          rw [h1, ih]
          simp only [List.isEmpty_cons, Bool.false_eq_true, if_false, h2]
          omega

theorem overlapSeed_length_le (prev : String) (oc : Nat) :
    (overlapSeed prev oc).length ≤ oc := by
  unfold overlapSeed
  by_cases h : oc < prev.length
  · rw [if_pos h, length_mk_list, List.length_drop]
    have : prev.toList.length = prev.length := rfl
    omega
  · rw [if_neg h]
    omega

/-- The loop invariant of `chunk_text`'s paragraph loop when no paragraph
exceeds the budget: every completed chunk is within `B`, the real joined
length of the chunk under construction never exceeds the tracked length, and
the tracked length never exceeds `B`. -/
def chunkInv (B : Nat) (st : ChunkState) : Prop :=
  (∀ c ∈ st.chunks, c.length ≤ B) ∧
  (join2 st.current_chunk).length ≤ st.current_length ∧
  st.current_length ≤ B

theorem paraStep_inv (mc oc : Nat) (st : ChunkState) (paraRaw : String)
    (hpara : (pyStrip paraRaw).length ≤ mc)
    (hinv : chunkInv (mc + oc + 2) st) :
    chunkInv (mc + oc + 2) (paraStep mc oc st paraRaw) := by
  obtain ⟨hchunks, hjoin, hlen⟩ := hinv
  unfold paraStep
  by_cases hempty : (pyStrip paraRaw).isEmpty = true
  · rw [if_pos hempty]
    exact ⟨hchunks, hjoin, hlen⟩
  · rw [if_neg hempty]
    by_cases hfits : st.current_length + (pyStrip paraRaw).length ≤ mc
    · rw [if_pos hfits]
      refine ⟨hchunks, ?_, ?_⟩
      · show (join2 (st.current_chunk ++ [pyStrip paraRaw])).length
            ≤ st.current_length + (pyStrip paraRaw).length + 2
        rw [join2_length_append]
        by_cases hcur : st.current_chunk.isEmpty = true
        · rw [if_pos hcur]
          omega
        · rw [if_neg hcur]
          omega
      · show st.current_length + (pyStrip paraRaw).length + 2 ≤ mc + oc + 2
        omega
    · rw [if_neg hfits]
      have hthick : ¬ (mc < (pyStrip paraRaw).length) := by omega
      rw [if_neg hthick]
      have hchunks1 : ∀ c ∈ (if !st.current_chunk.isEmpty then
          st.chunks ++ [join2 st.current_chunk] else st.chunks), c.length ≤ mc + oc + 2 := by
        intro c hc
        by_cases hcur : st.current_chunk.isEmpty = true
        · simp only [hcur, Bool.not_true, Bool.false_eq_true, if_false] at hc
          exact hchunks c hc
        · simp only [hcur, Bool.not_false, if_true] at hc
          rcases List.mem_append.mp hc with hcm | hcm
          · exact hchunks c hcm
          · have : c = join2 st.current_chunk := List.mem_singleton.mp hcm
            subst this
            omega
      by_cases hseed : (decide (0 < oc) && !(if !st.current_chunk.isEmpty then
          st.chunks ++ [join2 st.current_chunk] else st.chunks).isEmpty) = true
      · rw [if_pos hseed]
        by_cases hov : (overlapSeed ((if !st.current_chunk.isEmpty then
            st.chunks ++ [join2 st.current_chunk] else st.chunks).getLastD "") oc).isEmpty = true
        · simp only [hov, Bool.not_true, Bool.false_eq_true, if_false]
          refine ⟨hchunks1, le_refl _, ?_⟩
          show (join2 [pyStrip paraRaw]).length ≤ mc + oc + 2
          show (pyStrip paraRaw).length ≤ mc + oc + 2
          omega
        · simp only [hov, Bool.not_false, if_true]
          refine ⟨hchunks1, le_refl _, ?_⟩
          show (join2 [overlapSeed _ oc, pyStrip paraRaw]).length ≤ mc + oc + 2
          have hseedlen := overlapSeed_length_le ((if !st.current_chunk.isEmpty then
            st.chunks ++ [join2 st.current_chunk] else st.chunks).getLastD "") oc
          show ((overlapSeed _ oc) ++ "\n\n" ++ pyStrip paraRaw).length ≤ mc + oc + 2
          simp only [String.length_append]
          have h2 : ("\n\n" : String).length = 2 := rfl
          omega
      · rw [if_neg hseed]
        refine ⟨hchunks1, ?_, ?_⟩
        · show (join2 [pyStrip paraRaw]).length ≤ (pyStrip paraRaw).length
          exact le_refl _
        · show (pyStrip paraRaw).length ≤ mc + oc + 2
          omega

theorem foldl_paraStep_inv (mc oc : Nat) :
    ∀ (l : List String) (st : ChunkState),
      (∀ p ∈ l, (pyStrip p).length ≤ mc) → chunkInv (mc + oc + 2) st →
      chunkInv (mc + oc + 2) (l.foldl (paraStep mc oc) st) := by
  intro l
  induction l with
  | nil => intro st _ hinv; exact hinv
  | cons p ps ih =>
      intro st hall hinv
      have h1 : (pyStrip p).length ≤ mc := hall p (List.mem_cons_self _ _)
      exact ih _ (fun q hq => hall q (List.mem_cons.mpr (Or.inr hq)))
        (paraStep_inv mc oc st p h1 hinv)

/-- C4 counterexample: with `max_tokens = 15` and `overlap = 5`, an input of
two 55-character paragraphs — every paragraph within the 60-character budget,
so no indivisible sentence can force an overflow — produces a second chunk of
77 characters, exceeding `max_tokens × 4 = 60`: the overlap seeding plus the
paragraph separator is added on top of the budget. -/
theorem C4_counterexample :
    (pySplitParas ⟨List.replicate 55 'a' ++ ['\n', '\n'] ++ List.replicate 55 'b'⟩).all
      (fun p => decide ((pyStrip p).length ≤ 15 * 4)) = true ∧
    chunk_text ⟨List.replicate 55 'a' ++ ['\n', '\n'] ++ List.replicate 55 'b'⟩ 15 5 =
      [⟨List.replicate 55 'a'⟩,
       ⟨List.replicate 20 'a' ++ ['\n', '\n'] ++ List.replicate 55 'b'⟩] ∧
    (chunk_text ⟨List.replicate 55 'a' ++ ['\n', '\n'] ++ List.replicate 55 'b'⟩ 15 5).any
      (fun c => decide (15 * 4 < c.length)) = true := by
  refine ⟨by decide, by decide, by decide⟩

/-- C4 (amended): chunking an empty or whitespace-only string returns an empty
list; every returned chunk has trimmed length > 50 characters; and whenever
every stripped paragraph of the input fits the `max_tokens × 4` character
budget (so the sentence fallback is never taken and no indivisible sentence
can force an overflow), every produced chunk's length is at most
`max_tokens × 4 + overlap × 4 + 2` — the bare `max_tokens × 4` bound of the
original claim fails because overlap seeding prepends up to `overlap × 4`
characters plus a 2-character separator on top of the budget. -/
theorem C4_chunking (text : String) (max_tokens overlap : Nat) :
    ((text = "" ∨ pyStrip text = "") → chunk_text text max_tokens overlap = []) ∧
    (∀ c ∈ chunk_text text max_tokens overlap, 50 < (pyStrip c).length) ∧
    ((∀ p ∈ pySplitParas text, (pyStrip p).length ≤ max_tokens * 4) →
      ∀ c ∈ chunk_text text max_tokens overlap,
        c.length ≤ max_tokens * 4 + overlap * 4 + 2) := by
  refine ⟨?_, ?_, ?_⟩
  · intro h
    unfold chunk_text
    rcases h with h | h
    · rw [h]
      rfl
    · rw [h]
      have hcond : (text.isEmpty || ("" : String).isEmpty) = true := by
        have h2 : ("" : String).isEmpty = true := rfl
        rw [h2, Bool.or_true]
      rw [if_pos hcond]
  · intro c hc
    unfold chunk_text at hc
    by_cases hguard : (text.isEmpty || (pyStrip text).isEmpty) = true
    · rw [if_pos hguard] at hc
      simp at hc
    · rw [if_neg hguard] at hc
      simp only [] at hc
      have := List.of_mem_filter hc
      exact of_decide_eq_true this
  · intro hall c hc
    unfold chunk_text at hc
    by_cases hguard : (text.isEmpty || (pyStrip text).isEmpty) = true
    · rw [if_pos hguard] at hc
      simp at hc
    · rw [if_neg hguard] at hc
      simp only [] at hc
      have hc2 := List.mem_of_mem_filter hc
      have hinv := foldl_paraStep_inv (max_tokens * 4) (overlap * 4) (pySplitParas text)
        { chunks := [], current_chunk := [], current_length := 0 }
        hall ⟨by simp, by simp [join2], by simp⟩
      obtain ⟨hchunks, hjoin, hlen⟩ := hinv
      by_cases hcur : ((pySplitParas text).foldl
          (paraStep (max_tokens * 4) (overlap * 4))
          { chunks := [], current_chunk := [], current_length := 0 }).current_chunk.isEmpty = true
      · rw [hcur] at hc2
        simp only [Bool.not_true, Bool.false_eq_true, if_false] at hc2
        exact hchunks c hc2
      · rw [eq_false_of_ne_true hcur] at hc2
        simp only [Bool.not_false, if_true] at hc2
        rcases List.mem_append.mp hc2 with hcm | hcm
        · exact hchunks c hcm
        · have : c = join2 _ := List.mem_singleton.mp hcm
          subst this
          omega

theorem C4_chunking_witness :
    chunk_text "" 15 5 = [] ∧
    (chunk_text (⟨List.replicate 60 'a'⟩ : String) 15 5).all
      (fun c => decide (c.length ≤ 15 * 4 + 5 * 4 + 2)) = true := by
  constructor
  · exact (C4_chunking "" 15 5).1 (Or.inl rfl)
  · have h := (C4_chunking (⟨List.replicate 60 'a'⟩ : String) 15 5).2.2 (by decide)
    exact List.all_eq_true.mpr (fun c hc => decide_eq_true (h c hc))
